import Mathlib

/-!
Verification development for the coteacher-naep map core algorithms.

Shallow embedding of:
- `extractLocationLabel` and `proficiencyToFraction` from
  `src/src/landing-helpers.ts` (the file carries two historical variants of
  `extractLocationLabel`: a locality-first variant at lines 52-85 and an
  informative-first variant at lines 168-201; both are embedded here under
  distinct names),
- the topology-decoding and point-alignment helpers
  `getStateBBoxFromTopology` and `getExpectedAlignedCityPoint` from
  `src/e2e/serve.mjs` (lines 70-169).

JS numbers are modelled as exact rationals (`ℚ`); integer delta pairs in arcs
as `ℤ`.  A JS value that may be non-finite (`NaN`, `±Infinity`) is modelled as
`Option ℚ` with `none` for the non-finite case.  The `±Infinity`-initialised
min/max accumulator of the bbox reduction is modelled with an `Option`
accumulator (`none` = nothing accumulated yet).
-/

namespace CoteacherNaep

/-! ## String helpers: the ADMIN_PATTERN regex

`const ADMIN_PATTERN = /^(township|county|borough|parish|district|division|precinct|unincorporated)\b/i`
(src/src/landing-helpers.ts line 6).  The regex is embedded over lists of
characters: a case-insensitive match of one of the listed words at the start
of the string, followed by a word boundary (`\b`): end of string or a
non-word character (word characters are letters, digits and underscore).
-/

def ADMIN_WORDS : List String :=
  ["township", "county", "borough", "parish", "district",
   "division", "precinct", "unincorporated"]

def isWordChar (c : Char) : Bool :=
  c.isAlphanum || c == '_'

/-- Whitespace test used by the embedding of JS `String.prototype.trim`. -/
def isWhitespaceChar (c : Char) : Bool :=
  c == ' ' || c == '\t' || c == '\n' || c == '\r'

/-- Embedding of JS `s.trim()` (ASCII whitespace suffices for this code base). -/
def trimStr (s : String) : String :=
  ⟨((s.data.dropWhile isWhitespaceChar).reverse.dropWhile isWhitespaceChar).reverse⟩

/-- Embedding of JS `s.toLowerCase()` (ASCII case folding). -/
def lowerStr (s : String) : String :=
  ⟨s.data.map Char.toLower⟩

/-- Embedding of `ADMIN_PATTERN.test s`: some admin word is a case-insensitive
prefix of `s` and the match ends at a word boundary. -/
def adminPatternTest (s : String) : Bool :=
  ADMIN_WORDS.any fun w =>
    let cs := s.data.map Char.toLower
    let ws := w.data
    decide (cs.take ws.length = ws) &&
      (match cs.drop ws.length with
       | [] => true
       | c :: _ => !(isWordChar c))

/-! ## GeoResponse data model (src/src/landing-helpers.ts lines 29-38) -/

structure InfoEntry where
  name : String
  order : Option Int := none
  description : Option String := none
deriving DecidableEq

structure AdminEntry where
  name : String
  order : Option Int := none
  adminLevel : Option Int := none
deriving DecidableEq

structure LocalityInfo where
  administrative : Option (List AdminEntry) := none
  informative : Option (List InfoEntry) := none
deriving DecidableEq

structure BigDataCloudResponse where
  city : Option String := none
  locality : Option String := none
  principalSubdivision : Option String := none
  principalSubdivisionCode : Option String := none
  localityInfo : Option LocalityInfo := none
deriving DecidableEq

/-- First element attaining the maximal key.  This models the JS idiom
`list.sort((a, b) => key(b) - key(a))[0]`: a stable descending sort followed
by taking the head returns the first element with the largest key. -/
def argmaxFirst (key : α → Int) : List α → Option α
  | [] => none
  | a :: l =>
    match argmaxFirst key l with
    | none => some a
    | some b => if key a < key b then some b else some a

/-- Candidate filter of the informative-first `extractLocationLabel`
(src/src/landing-helpers.ts lines 171-179): informative entries with a
present `order >= 4`, a non-empty (truthy) `name`, and a trimmed name that
does not match `ADMIN_PATTERN`. -/
def informativeCandidates (geo : BigDataCloudResponse) : List InfoEntry :=
  ((geo.localityInfo.bind LocalityInfo.informative).getD []).filter fun e =>
    (match e.order with
     | some o => decide (4 ≤ o)
     | none => false)
      && !(e.name == "") && !(adminPatternTest (trimStr e.name))

/-- Embedding of `extractLocationLabel`, informative-first variant
(src/src/landing-helpers.ts lines 168-201).  Priority: qualifying
`localityInfo.informative` entries (highest order first), then `city`,
then non-administrative `locality`, then `principalSubdivision`, else `""`. -/
def extractLocationLabel (geo : BigDataCloudResponse) : String :=
  match argmaxFirst (fun e => e.order.getD 0) (informativeCandidates geo) with
  | some e => e.name
  | none =>
    let city := trimStr (geo.city.getD "")
    if city ≠ "" then city
    else
      let loc := trimStr (geo.locality.getD "")
      if loc ≠ "" ∧ ¬ adminPatternTest loc then loc
      else
        let ps := trimStr (geo.principalSubdivision.getD "")
        if ps ≠ "" then ps else ""

/-- Embedding of `extractLocationLabel`, locality-first variant
(src/src/landing-helpers.ts lines 52-85).  Priority: non-administrative
`locality`, then non-administrative `city`, then
`localityInfo.administrative` entries with `adminLevel >= 8` (highest level
first), then `principalSubdivision`, else `""`.  This variant never reads
`localityInfo.informative`. -/
def extractLocationLabelLocalityFirst (geo : BigDataCloudResponse) : String :=
  let loc := trimStr (geo.locality.getD "")
  if loc ≠ "" ∧ ¬ adminPatternTest loc then loc
  else
    let city := trimStr (geo.city.getD "")
    if city ≠ "" ∧ ¬ adminPatternTest city then city
    else
      let admins := ((geo.localityInfo.bind LocalityInfo.administrative).getD []).filter fun e =>
        (match e.adminLevel with
         | some l => decide (8 ≤ l)
         | none => false)
          && !(e.name == "") && !(adminPatternTest (trimStr e.name))
      match argmaxFirst (fun e => e.adminLevel.getD 0) admins with
      | some e => e.name
      | none =>
        let ps := trimStr (geo.principalSubdivision.getD "")
        if ps ≠ "" then ps else ""

/-- Replaces the `localityInfo.informative` field with `none`, leaving the
rest of the response unchanged. -/
def removeInformative (geo : BigDataCloudResponse) : BigDataCloudResponse :=
  { geo with localityInfo := geo.localityInfo.map fun li => { li with informative := none } }

/-- Fallback chain of the informative-first resolver as the specification
words it: trimmed non-empty `city`, else trimmed non-empty non-administrative
`locality`, else trimmed non-empty `principalSubdivision`, else `""`. -/
def labelFallbackSpec (geo : BigDataCloudResponse) : String :=
  let city := trimStr (geo.city.getD "")
  if city ≠ "" then city
  else
    let loc := trimStr (geo.locality.getD "")
    if loc ≠ "" ∧ ¬ adminPatternTest loc then loc
    else
      let ps := trimStr (geo.principalSubdivision.getD "")
      if ps ≠ "" then ps else ""

/-- Input of the specification example: locality `Township of Madison` with a
single informative entry `Canal Winchester` of order 5. -/
def c1Example : BigDataCloudResponse :=
  { locality := some "Township of Madison",
    localityInfo := some
      { informative := some [{ name := "Canal Winchester", order := some 5 }] } }

/-- Real BigDataCloud payload for Canal Winchester, OH, as recorded in the
repository test fixture (`canalWinchesterFixture`, src/unnamed/part_002
lines 37-64, and the e2e mock in src/e2e/serve.mjs). -/
def canalWinchesterFixture : BigDataCloudResponse :=
  { city := some "Township of Madison",
    locality := some "Canal Winchester",
    principalSubdivision := some "Ohio",
    principalSubdivisionCode := some "US-OH",
    localityInfo := some
      { administrative := some
          [{ name := "United States of America (the)", order := some 2, adminLevel := some 2 },
           { name := "Ohio", order := some 6, adminLevel := some 4 },
           { name := "Fairfield County", order := some 7, adminLevel := some 6 },
           { name := "Township of Madison", order := some 8, adminLevel := some 7 },
           { name := "Township of Violet", order := some 10, adminLevel := some 7 },
           { name := "Canal Winchester", order := some 12, adminLevel := some 8 }],
        informative := some
          [{ name := "North America", order := some 1 },
           { name := "contiguous United States", order := some 3 },
           { name := "Central Lowlands", order := some 4 },
           { name := "America/New_York", order := some 5, description := some "time zone" },
           { name := "43110", order := some 9, description := some "postal code" },
           { name := "39-045-80206", order := some 11, description := some "FIPS code" }] } }

/-! ## Proficiency fraction (src/src/landing-helpers.ts lines 93-119) -/

structure Fraction where
  numerator : Int
  denominator : Int
deriving DecidableEq

/-- Embedding of `proficiencyToFraction`: tries denominators 4, 5, 10; keeps
the candidate with the smallest absolute error, replacing the current best on
a strictly smaller error or on an equal error with a larger denominator (the
JS loop initialises `bestError = Infinity`, modelled by the `none` state of
the accumulator); finally clamps the numerator away from `0` and from the
denominator. -/
def proficiencyToFraction (proficiency : ℚ) : Fraction :=
  let belowProficient := 1 - proficiency
  let denominators : List Int := [4, 5, 10]
  let best := denominators.foldl
    (fun (best : Int × Int × Option ℚ) (den : Int) =>
      let num := round (belowProficient * (den : ℚ))
      let error := |(num : ℚ) / (den : ℚ) - belowProficient|
      match best with
      | (_, _, none) => (num, den, some error)
      | (bestNum, bestDen, some bestErr) =>
        if error < bestErr ∨ (error = bestErr ∧ bestDen < den)
        then (num, den, some error)
        else (bestNum, bestDen, some bestErr))
    (0, 10, none)
  let bestNum := best.1
  let bestDen := best.2.1
  let bestNum := if bestNum ≤ 0 then 1 else bestNum
  let bestNum := if bestDen ≤ bestNum then bestDen - 1 else bestNum
  ⟨bestNum, bestDen⟩

/-- The algorithm as the specification words it: for each denominator in
`{4, 5, 10}` round the below-proficient share to the nearest numerator; pick
the denominator with the smallest absolute error, breaking ties toward the
largest denominator; clamp the numerator into `[1, den - 1]`. -/
def fractionSpec (p : ℚ) : Fraction :=
  let b := 1 - p
  let n4 : Int := round (b * 4)
  let e4 := |(n4 : ℚ) / 4 - b|
  let n5 : Int := round (b * 5)
  let e5 := |(n5 : ℚ) / 5 - b|
  let n10 : Int := round (b * 10)
  let e10 := |(n10 : ℚ) / 10 - b|
  let pick : Int × Int :=
    if e10 ≤ e4 ∧ e10 ≤ e5 then (n10, 10)
    else if e5 ≤ e4 then (n5, 5)
    else (n4, 4)
  let n := if pick.1 ≤ 0 then 1 else pick.1
  let n := if pick.2 ≤ n then pick.2 - 1 else n
  ⟨n, pick.2⟩

/-! ## Topology decoding (src/e2e/serve.mjs lines 70-124) -/

structure Transform where
  scale : ℚ × ℚ
  translate : ℚ × ℚ
deriving DecidableEq

/-- Arc index lists of a geometry: a `Polygon` holds one list of rings, a
`MultiPolygon` one list of rings per sub-polygon. -/
inductive GeometryArcs where
  | polygon (rings : List (List Int))
  | multiPolygon (polys : List (List (List Int)))
deriving DecidableEq

structure Geometry where
  id : String
  arcs : GeometryArcs
deriving DecidableEq

/-- Topology input; `geometries` embeds `topology.objects.states.geometries`. -/
structure Topology where
  transform : Option Transform := none
  arcs : List (List (Int × Int)) := []
  geometries : List Geometry := []
deriving DecidableEq

/-- Embedding of `topology.transform || { scale: [1, 1], translate: [0, 0] }`. -/
def effectiveTransform (t : Option Transform) : Transform :=
  t.getD ⟨(1, 1), (0, 0)⟩

/-- Running-sum decoding of one delta-encoded arc, carrying the cumulative
sums `x, y` (source: `let x = 0, y = 0; arc.map(...)`). -/
def decodeArcAux (sx sy tx ty : ℚ) (x y : Int) : List (Int × Int) → List (ℚ × ℚ)
  | [] => []
  | (dx, dy) :: rest =>
    let x1 := x + dx
    let y1 := y + dy
    ((x1 : ℚ) * sx + tx, (y1 : ℚ) * sy + ty) :: decodeArcAux sx sy tx ty x1 y1 rest

/-- Embedding of the arc decoder (src/e2e/serve.mjs lines 78-89): prefix sums
of the deltas, rescaled affinely by scale and translate. -/
def decodeArc (sx sy tx ty : ℚ) (arc : List (Int × Int)) : List (ℚ × ℚ) :=
  decodeArcAux sx sy tx ty 0 0 arc

/-- All arcs of a topology, decoded with its effective transform. -/
def decodedArcs (topo : Topology) : List (List (ℚ × ℚ)) :=
  let tr := effectiveTransform topo.transform
  topo.arcs.map (decodeArc tr.scale.1 tr.scale.2 tr.translate.1 tr.translate.2)

/-- Embedding of the `ring` closure (src/e2e/serve.mjs lines 91-100): resolve
each arc index (`~i`, i.e. `-(i+1)`, means arc `i` reversed) and concatenate;
an element at position `j` of an arc is appended when `j > 0` or the
accumulated ring is still empty, which per arc amounts to appending the whole
arc when the accumulator is empty and dropping the first (duplicate) point
otherwise. -/
def ringCoords (decoded : List (List (ℚ × ℚ))) (idx : List Int) : List (ℚ × ℚ) :=
  idx.foldl
    (fun coords i =>
      let arc := if 0 ≤ i then decoded.getD i.toNat []
                 else (decoded.getD (-(i + 1)).toNat []).reverse
      coords ++ (if coords.isEmpty then arc else arc.drop 1))
    []

/-- All points of all rings of a geometry (MultiPolygon sub-polygons are
flattened, src/e2e/serve.mjs lines 104-108). -/
def geometryPoints (topo : Topology) (geom : Geometry) : List (ℚ × ℚ) :=
  let decoded := decodedArcs topo
  let polys :=
    match geom.arcs with
    | .multiPolygon a => a.map fun (sub : List (List Int)) => sub.map (ringCoords decoded)
    | .polygon a => [a.map (ringCoords decoded)]
  polys.flatten.flatten

structure BBox where
  x0 : ℚ
  y0 : ℚ
  x1 : ℚ
  y1 : ℚ
  w : ℚ
  h : ℚ
deriving DecidableEq

/-- Running min/max reduction over a point list (src/e2e/serve.mjs
lines 110-123).  The source initialises the accumulator with
`x0 = y0 = Infinity, x1 = y1 = -Infinity`; that untouched infinite state is
modelled by `none`, so an empty point list yields `none` where the JS code
yields the degenerate all-infinite bbox record. -/
def bboxFold (pts : List (ℚ × ℚ)) : Option BBox :=
  match pts.foldl
      (fun acc (p : ℚ × ℚ) =>
        match acc with
        | none => some (p.1, p.2, p.1, p.2)
        | some (a, b, c, d) => some (min a p.1, min b p.2, max c p.1, max d p.2))
      none with
  | none => none
  | some (a, b, c, d) => some ⟨a, b, c, d, c - a, d - b⟩

/-- Embedding of `getStateBBoxFromTopology` (src/e2e/serve.mjs lines 70-124):
look up the geometry by FIPS id (throwing when absent), resolve its rings and
reduce every point to a bbox.  A geometry that resolves to zero points
returns `Except.ok none` (the silently returned infinite bbox of the JS
code), not an error. -/
def getStateBBoxFromTopology (topo : Topology) (fips : String) :
    Except String (Option BBox) :=
  match topo.geometries.find? (fun g => g.id == fips) with
  | none => Except.error "Missing geometry for FIPS"
  | some geom => Except.ok (bboxFold (geometryPoints topo geom))

/-! ## Point alignment (src/e2e/serve.mjs lines 126-169) -/

/-- A record of a per-state dataset (city / district / school): `x`, `y` are
JS numbers, `none` modelling a non-finite (or missing) value. -/
structure StatePoint where
  name : String
  x : Option ℚ := none
  y : Option ℚ := none
deriving DecidableEq

structure StateData where
  cities : List StatePoint := []
  districts : List StatePoint := []
  schools : List StatePoint := []
deriving DecidableEq

/-- `allPts` of the source (lines 134-138): the concatenation of cities,
districts and schools, keeping only entries with finite `x` and `y`. -/
def allFinitePts (sd : StateData) : List StatePoint :=
  (sd.cities ++ sd.districts ++ sd.schools).filter fun p => p.x.isSome && p.y.isSome

/-- Coordinate pairs of a point list (all entries are finite when taken from
`allFinitePts`; the default `0` is never read there). -/
def ptsXY (l : List StatePoint) : List (ℚ × ℚ) :=
  l.map fun p => (p.x.getD 0, p.y.getD 0)

/-- Core alignment mapping (src/e2e/serve.mjs lines 152-168): uniform
scale-to-fit of the cloud bbox into the padded target bbox, centred, applied
to the point `(px, py)`. -/
def alignPoint (bb : BBox) (pad : ℚ) (cloud : BBox) (px py : ℚ) : ℚ × ℚ :=
  let availW := bb.w * (1 - 2 * pad)
  let availH := bb.h * (1 - 2 * pad)
  let alignScale := min (availW / cloud.w) (availH / cloud.h)
  let scaledW := cloud.w * alignScale
  let scaledH := cloud.h * alignScale
  let ox := bb.x0 + bb.w * pad + (availW - scaledW) / 2
  let oy := bb.y0 + bb.h * pad + (availH - scaledH) / 2
  (ox + (px - cloud.x0) * alignScale, oy + (py - cloud.y0) * alignScale)

/-- The same mapping as the specification words it: `scale = min(availW/dw,
availH/dh)` with `availW = w*(1-2*pad)`, origin `ox = x0 + w*pad +
(availW - dw*scale)/2` (and analogously for `oy`), each point mapped to
`(ox + (x-dx0)*scale, oy + (y-dy0)*scale)`. -/
def specAlignedPoint (bb : BBox) (pad : ℚ) (cloud : BBox) (px py : ℚ) : ℚ × ℚ :=
  let availW := bb.w * (1 - 2 * pad)
  let availH := bb.h * (1 - 2 * pad)
  let scale := min (availW / cloud.w) (availH / cloud.h)
  let ox := bb.x0 + bb.w * pad + (availW - cloud.w * scale) / 2
  let oy := bb.y0 + bb.h * pad + (availH - cloud.h * scale) / 2
  (ox + (px - cloud.x0) * scale, oy + (py - cloud.y0) * scale)

/-- Embedding of `getExpectedAlignedCityPoint` (src/e2e/serve.mjs
lines 126-169), with the file contents passed as parsed values: find the
city by case-insensitive name (throwing when absent), collect the finite
point cloud (throwing when empty), reduce it to its bbox, fetch the state
bbox from the topology and align the city point into it.  `Except.ok none`
models the non-finite (`NaN`) result the JS code produces when the state
bbox itself is degenerate-infinite. -/
def getExpectedAlignedCityPoint (sd : StateData) (topo : Topology)
    (fips cityName : String) : Except String (Option (ℚ × ℚ)) :=
  match sd.cities.find? (fun c => lowerStr c.name == lowerStr cityName) with
  | none => Except.error "Missing city"
  | some city =>
    let allPts := allFinitePts sd
    if allPts.isEmpty then Except.error "No points"
    else
      match bboxFold (ptsXY allPts) with
      | none => Except.ok none
      | some cloud =>
        match getStateBBoxFromTopology topo fips with
        | Except.error e => Except.error e
        | Except.ok none => Except.ok none
        | Except.ok (some bb) =>
          Except.ok (some (alignPoint bb (0.04 : ℚ) cloud (city.x.getD 0) (city.y.getD 0)))

/-- Target bbox scaled by `k` in width and height, origin kept fixed. -/
def scaleBBox (bb : BBox) (k : ℚ) : BBox :=
  ⟨bb.x0, bb.y0, bb.x0 + k * bb.w, bb.y0 + k * bb.h, k * bb.w, k * bb.h⟩

/-! ## Concrete fixtures for the end-to-end scenarios -/

/-- Topology whose single state `"39"` decodes to the bbox
`{x0:0, y0:0, w:100, h:50}` of the specification scenario. -/
def topoEx : Topology :=
  { arcs := [[(0, 0), (100, 50)]],
    geometries := [{ id := "39", arcs := .polygon [[0]] }] }

/-- Topology whose geometry `"99"` has zero rings. -/
def topoNoRings : Topology :=
  { geometries := [{ id := "99", arcs := .polygon [] }] }

/-- Dataset of the specification scenario: point cloud with bbox
`{dx0:0, dy0:0, dw:10, dh:10}`, city `A` at `(5, 5)` (the cloud centroid). -/
def sdC3 : StateData :=
  { cities := [{ name := "A", x := some 5, y := some 5 }],
    districts := [{ name := "B", x := some 0, y := some 0 },
                  { name := "C", x := some 10, y := some 10 }] }

/-- Dataset whose finite point cloud has zero width (`dw = 0`): all points
share `x = 3`; city `A` sits at the vertical midpoint of the cloud. -/
def sdZeroW : StateData :=
  { cities := [{ name := "A", x := some 3, y := some 5 }],
    districts := [{ name := "B", x := some 3, y := some 0 },
                  { name := "C", x := some 3, y := some 10 }] }

/-- Dataset with no points at all. -/
def sdEmpty : StateData := {}

/-- Two-delta arc used to witness the decoder formula. -/
def exArc : List (Int × Int) := [(1, 2), (3, 4)]

/-! ## Generic lemmas about the helper functions -/

theorem argmaxFirst_eq_none {key : α → Int} {l : List α} :
    argmaxFirst key l = none ↔ l = [] := by
  cases l with
  | nil => simp [argmaxFirst]
  | cons a t =>
    simp only [argmaxFirst]
    cases argmaxFirst key t with
    | none => simp
    | some b => by_cases h : key a < key b <;> simp [h]

theorem argmaxFirst_mem {key : α → Int} :
    ∀ {l : List α} {b : α}, argmaxFirst key l = some b → b ∈ l := by
  intro l
  induction l with
  | nil => intro b h; simp [argmaxFirst] at h
  | cons a t ih =>
    intro b h
    rw [argmaxFirst] at h
    cases ht : argmaxFirst key t with
    | none =>
      rw [ht] at h
      dsimp only at h
      simp only [Option.some.injEq] at h
      subst h
      exact List.mem_cons_self a t
    | some c =>
      rw [ht] at h
      dsimp only at h
      by_cases hk : key a < key c
      · rw [if_pos hk] at h
        simp only [Option.some.injEq] at h
        subst h
        exact List.mem_cons_of_mem _ (ih ht)
      · rw [if_neg hk] at h
        simp only [Option.some.injEq] at h
        subst h
        exact List.mem_cons_self a t

theorem argmaxFirst_le {key : α → Int} :
    ∀ {l : List α} {b : α}, argmaxFirst key l = some b → ∀ f ∈ l, key f ≤ key b := by
  intro l
  induction l with
  | nil => intro b h; simp [argmaxFirst] at h
  | cons a t ih =>
    intro b h
    rw [argmaxFirst] at h
    cases ht : argmaxFirst key t with
    | none =>
      rw [ht] at h
      dsimp only at h
      simp only [Option.some.injEq] at h
      subst h
      have htn : t = [] := argmaxFirst_eq_none.mp ht
      subst htn
      simp
    | some c =>
      rw [ht] at h
      dsimp only at h
      intro f hf
      rcases List.mem_cons.mp hf with hfa | hft
      · subst hfa
        by_cases hk : key f < key c
        · rw [if_pos hk] at h
          simp only [Option.some.injEq] at h
          subst h
          exact hk.le
        · rw [if_neg hk] at h
          simp only [Option.some.injEq] at h
          subst h
          exact le_refl _
      · have hc := ih ht f hft
        by_cases hk : key a < key c
        · rw [if_pos hk] at h
          simp only [Option.some.injEq] at h
          subst h
          exact hc
        · rw [if_neg hk] at h
          simp only [Option.some.injEq] at h
          subst h
          exact hc.trans (not_lt.mp hk)

/-- Evaluation rule for `round` on rationals (round-half-up, as JS
`Math.round`). -/
theorem round_eq_of (x : ℚ) (n : ℤ) (h1 : (n : ℚ) ≤ x + 1/2) (h2 : x + 1/2 < n + 1) :
    round x = n := by
  rw [round_eq]
  exact Int.floor_eq_iff.mpr ⟨h1, h2⟩

/-- The best-candidate fold of `proficiencyToFraction` computes the
specification's smallest-error, ties-to-largest-denominator selection. -/
theorem prof_eq_spec (p : ℚ) : proficiencyToFraction p = fractionSpec p := by
  simp only [proficiencyToFraction, fractionSpec, List.foldl, Int.cast_ofNat]
  set b := 1 - p with hb
  set n4 := round (b * 4) with hn4
  set n5 := round (b * 5) with hn5
  set n10 := round (b * 10) with hn10
  set e4 := |(n4 : ℚ) / 4 - b| with he4
  set e5 := |(n5 : ℚ) / 5 - b| with he5
  set e10 := |(n10 : ℚ) / 10 - b| with he10
  clear_value b n4 n5 n10 e4 e5 e10
  rcases le_or_lt e5 e4 with h54 | h54
  · have hc1 : e5 < e4 ∨ e5 = e4 ∧ (4 : ℤ) < 5 := by
      rcases lt_or_eq_of_le h54 with h | h
      · exact Or.inl h
      · exact Or.inr ⟨h, by norm_num⟩
    rw [if_pos hc1]
    dsimp only
    rcases le_or_lt e10 e5 with h105 | h105
    · have hc2 : e10 < e5 ∨ e10 = e5 ∧ (5 : ℤ) < 10 := by
        rcases lt_or_eq_of_le h105 with h | h
        · exact Or.inl h
        · exact Or.inr ⟨h, by norm_num⟩
      rw [if_pos hc2, if_pos (show e10 ≤ e4 ∧ e10 ≤ e5 from ⟨h105.trans h54, h105⟩)]
    · have hc2 : ¬(e10 < e5 ∨ e10 = e5 ∧ (5 : ℤ) < 10) := by
        rintro (h | ⟨h, _⟩) <;> linarith
      have hs : ¬(e10 ≤ e4 ∧ e10 ≤ e5) := fun hX => absurd hX.2 (not_le.mpr h105)
      rw [if_neg hc2, if_neg hs, if_pos h54]
  · have hc1 : ¬(e5 < e4 ∨ e5 = e4 ∧ (4 : ℤ) < 5) := by
      rintro (h | ⟨h, _⟩) <;> linarith
    rw [if_neg hc1]
    dsimp only
    rcases le_or_lt e10 e4 with h104 | h104
    · have hc2 : e10 < e4 ∨ e10 = e4 ∧ (4 : ℤ) < 10 := by
        rcases lt_or_eq_of_le h104 with h | h
        · exact Or.inl h
        · exact Or.inr ⟨h, by norm_num⟩
      rw [if_pos hc2, if_pos (show e10 ≤ e4 ∧ e10 ≤ e5 from ⟨h104, h104.trans h54.le⟩)]
    · have hc2 : ¬(e10 < e4 ∨ e10 = e4 ∧ (4 : ℤ) < 10) := by
        rintro (h | ⟨h, _⟩) <;> linarith
      have hs : ¬(e10 ≤ e4 ∧ e10 ≤ e5) := fun hX => absurd hX.1 (not_le.mpr h104)
      have hs2 : ¬(e5 ≤ e4) := not_le.mpr h54
      rw [if_neg hc2, if_neg hs, if_neg hs2]

theorem prof_at_0615 : proficiencyToFraction (0.615 : ℚ) = ⟨4, 10⟩ := by
  rw [prof_eq_spec]
  have h4 : round ((1 - (0.615 : ℚ)) * 4) = 2 := round_eq_of _ _ (by norm_num) (by norm_num)
  have h5 : round ((1 - (0.615 : ℚ)) * 5) = 2 := round_eq_of _ _ (by norm_num) (by norm_num)
  have h10 : round ((1 - (0.615 : ℚ)) * 10) = 4 := round_eq_of _ _ (by norm_num) (by norm_num)
  simp only [fractionSpec, h4, h5, h10]
  norm_num [abs_of_nonneg, abs_of_nonpos]

theorem prof_at_half : proficiencyToFraction (0.5 : ℚ) = ⟨5, 10⟩ := by
  rw [prof_eq_spec]
  have h4 : round ((1 - (0.5 : ℚ)) * 4) = 2 := round_eq_of _ _ (by norm_num) (by norm_num)
  have h5 : round ((1 - (0.5 : ℚ)) * 5) = 3 := round_eq_of _ _ (by norm_num) (by norm_num)
  have h10 : round ((1 - (0.5 : ℚ)) * 10) = 5 := round_eq_of _ _ (by norm_num) (by norm_num)
  simp only [fractionSpec, h4, h5, h10]
  norm_num [abs_of_nonneg, abs_of_nonpos]

theorem prof_at_zero : proficiencyToFraction 0 = ⟨9, 10⟩ := by
  rw [prof_eq_spec]
  have h4 : round ((1 - (0 : ℚ)) * 4) = 4 := round_eq_of _ _ (by norm_num) (by norm_num)
  have h5 : round ((1 - (0 : ℚ)) * 5) = 5 := round_eq_of _ _ (by norm_num) (by norm_num)
  have h10 : round ((1 - (0 : ℚ)) * 10) = 10 := round_eq_of _ _ (by norm_num) (by norm_num)
  simp only [fractionSpec, h4, h5, h10]
  norm_num [abs_of_nonneg, abs_of_nonpos]

theorem prof_at_one : proficiencyToFraction 1 = ⟨1, 10⟩ := by
  rw [prof_eq_spec]
  have h4 : round ((1 - (1 : ℚ)) * 4) = 0 := round_eq_of _ _ (by norm_num) (by norm_num)
  have h5 : round ((1 - (1 : ℚ)) * 5) = 0 := round_eq_of _ _ (by norm_num) (by norm_num)
  have h10 : round ((1 - (1 : ℚ)) * 10) = 0 := round_eq_of _ _ (by norm_num) (by norm_num)
  simp only [fractionSpec, h4, h5, h10]
  norm_num [abs_of_nonneg, abs_of_nonpos]

/-- Clamped-fraction invariant, for every rational proficiency. -/
theorem prof_invariant (p : ℚ) :
    ((proficiencyToFraction p).denominator = 4 ∨ (proficiencyToFraction p).denominator = 5
      ∨ (proficiencyToFraction p).denominator = 10)
    ∧ 1 ≤ (proficiencyToFraction p).numerator
    ∧ (proficiencyToFraction p).numerator ≤ (proficiencyToFraction p).denominator - 1 := by
  rw [prof_eq_spec]
  simp only [fractionSpec]
  split_ifs <;> refine ⟨by norm_num, by omega, by omega⟩

/-! ## Claim theorems -/

/-- C1: the informative-first `extractLocationLabel` applies the fixed
precedence order: among qualifying `localityInfo.informative` entries
(present `order >= 4`, non-empty name, trimmed name not matching the
administrative-unit pattern) it returns the name of a maximal-order entry;
with no qualifying entry it falls back to the trimmed non-empty `city`, then
the trimmed non-empty non-administrative `locality`, then the trimmed
non-empty `principalSubdivision`, then `""`.  In particular the input with
locality `Township of Madison` and informative entry `Canal Winchester` of
order 5 resolves to `Canal Winchester`. -/
theorem C1_informative_first_precedence :
    (∀ geo : BigDataCloudResponse,
        (informativeCandidates geo = [] →
          extractLocationLabel geo = labelFallbackSpec geo)
        ∧ (informativeCandidates geo ≠ [] →
            ∃ e ∈ informativeCandidates geo,
              (∀ f ∈ informativeCandidates geo, f.order.getD 0 ≤ e.order.getD 0)
              ∧ extractLocationLabel geo = e.name))
    ∧ extractLocationLabel c1Example = "Canal Winchester" := by
  constructor
  · intro geo
    constructor
    · intro h
      unfold extractLocationLabel labelFallbackSpec
      rw [h]
      rfl
    · intro h
      cases he : argmaxFirst (fun e => e.order.getD 0) (informativeCandidates geo) with
      | none => exact absurd (argmaxFirst_eq_none.mp he) h
      | some e =>
        refine ⟨e, argmaxFirst_mem he, argmaxFirst_le he, ?_⟩
        unfold extractLocationLabel
        rw [he]
  · decide

/-- Witness for C1 at the specification example: the candidate list is
non-empty and the resolver returns a maximal-order candidate's name. -/
theorem C1_witness :
    informativeCandidates c1Example ≠ [] ∧
      ∃ e ∈ informativeCandidates c1Example,
        (∀ f ∈ informativeCandidates c1Example, f.order.getD 0 ≤ e.order.getD 0)
        ∧ extractLocationLabel c1Example = e.name :=
  ⟨by decide, (C1_informative_first_precedence.1 c1Example).2 (by decide)⟩

/-- C2, counterexample: on the real Canal Winchester payload the
informative-first `extractLocationLabel` (the variant at
src/src/landing-helpers.ts lines 168-201) does not return `Canal Winchester`
but the FIPS-code informative entry `39-045-80206` (order 11, unfiltered by
the administrative pattern). -/
theorem C2_counterexample :
    extractLocationLabel canalWinchesterFixture ≠ "Canal Winchester"
    ∧ extractLocationLabel canalWinchesterFixture = "39-045-80206" := by
  decide

/-- C2, amended: the locality-first `extractLocationLabel` variant
(src/src/landing-helpers.ts lines 52-85) returns `Canal Winchester` on the
real Canal Winchester payload, and its result never depends on
`localityInfo.informative` (so no string drawn from informative entries —
postal code, FIPS code or timezone — can ever be returned from them). -/
theorem C2_no_bare_codes_locality_first :
    extractLocationLabelLocalityFirst canalWinchesterFixture = "Canal Winchester"
    ∧ ∀ geo : BigDataCloudResponse,
        extractLocationLabelLocalityFirst (removeInformative geo) =
          extractLocationLabelLocalityFirst geo := by
  constructor
  · decide
  · intro geo
    rcases geo with ⟨c, loc, ps, psc, li⟩
    rcases li with _ | ⟨adm, inf⟩ <;> rfl

/-- C4, counterexample: a topology whose geometry `"99"` has zero rings does
not fail — `getStateBBoxFromTopology` silently returns the degenerate
(`±Infinity`-initialised, modelled `none`) bbox wrapped in `Except.ok`. -/
theorem C4_counterexample :
    getStateBBoxFromTopology topoNoRings "99" = Except.ok none := by
  rfl

/-- C4, amended: when the requested geometry exists but resolves to zero
points, `getStateBBoxFromTopology` does not raise an error: it silently
returns the untouched degenerate accumulator (`Except.ok none`); the only
failure of the function is the missing-geometry lookup error. -/
theorem C4_zero_rings_silent (topo : Topology) (fips : String) (geom : Geometry)
    (h1 : topo.geometries.find? (fun g => g.id == fips) = some geom)
    (h2 : geometryPoints topo geom = []) :
    getStateBBoxFromTopology topo fips = Except.ok none := by
  unfold getStateBBoxFromTopology
  rw [h1]
  dsimp only
  rw [h2]
  rfl

/-- Witness for C4 at the concrete zero-ring topology. -/
theorem C4_witness :
    topoNoRings.geometries.find? (fun g => g.id == "99") =
        some { id := "99", arcs := .polygon [] }
    ∧ geometryPoints topoNoRings { id := "99", arcs := .polygon [] } = []
    ∧ getStateBBoxFromTopology topoNoRings "99" = Except.ok none :=
  ⟨by decide, by rfl,
    C4_zero_rings_silent topoNoRings "99" { id := "99", arcs := .polygon [] }
      (by decide) (by rfl)⟩

/-- C5, counterexample: a dataset whose finite cloud has zero width
(`dw = 0`, all points at `x = 3`) does not make `getExpectedAlignedCityPoint`
fail: it returns a numeric mapping. -/
theorem C5_counterexample :
    bboxFold (ptsXY (allFinitePts sdZeroW)) =
        some { x0 := 3, y0 := 0, x1 := 3, y1 := 10, w := 0, h := 10 }
    ∧ getExpectedAlignedCityPoint sdZeroW topoEx "39" "A" =
        Except.ok (some (50, 25)) := by
  constructor
  · norm_num [bboxFold, ptsXY, allFinitePts, sdZeroW, List.filter, min_def, max_def]
  · norm_num [getExpectedAlignedCityPoint, sdZeroW, topoEx, allFinitePts, ptsXY, bboxFold,
      getStateBBoxFromTopology, geometryPoints, decodedArcs, decodeArc, decodeArcAux,
      ringCoords, effectiveTransform, alignPoint, List.find?, List.filter, min_def]

/-- C5, amended: `getExpectedAlignedCityPoint` fails whenever the finite
point cloud is empty (with the no-points error, or the missing-city error
when the lookup already failed); a cloud of zero width or height does not
cause a failure. -/
theorem C5_empty_cloud_fails (sd : StateData) (topo : Topology)
    (fips cityName : String) (h : allFinitePts sd = []) :
    ∃ e, getExpectedAlignedCityPoint sd topo fips cityName = Except.error e := by
  unfold getExpectedAlignedCityPoint
  cases hf : sd.cities.find? (fun c => lowerStr c.name == lowerStr cityName) with
  | none => exact ⟨"Missing city", rfl⟩
  | some c =>
    refine ⟨"No points", ?_⟩
    rw [h]
    rfl

/-- Witness for C5 at the empty dataset. -/
theorem C5_witness :
    allFinitePts sdEmpty = [] ∧
      ∃ e, getExpectedAlignedCityPoint sdEmpty topoEx "39" "A" = Except.error e :=
  ⟨by rfl, C5_empty_cloud_fails sdEmpty topoEx "39" "A" (by rfl)⟩

/-- C6: for every proficiency, `proficiencyToFraction` computes exactly the
specification's algorithm — round `(1 - p) * den` for `den ∈ {4, 5, 10}`,
keep the denominator with the smallest absolute error, ties broken toward
the largest denominator, then clamp — and in particular proficiency `0.615`
yields `4/10` and proficiency `0.5` yields `5/10`. -/
theorem C6_fraction_algorithm :
    (∀ p : ℚ, proficiencyToFraction p = fractionSpec p)
    ∧ proficiencyToFraction (0.615 : ℚ) = ⟨4, 10⟩
    ∧ proficiencyToFraction (0.5 : ℚ) = ⟨5, 10⟩ :=
  ⟨prof_eq_spec, prof_at_0615, prof_at_half⟩

/-- C7: for every proficiency in `[0, 1]` the returned fraction has
denominator in `{4, 5, 10}` and numerator in `[1, denominator - 1]` (never
`0/den`, never `den/den`); proficiency `0` yields numerator
`denominator - 1` and proficiency `1` yields numerator `1`. -/
theorem C7_fraction_invariant :
    (∀ p : ℚ, 0 ≤ p → p ≤ 1 →
      ((proficiencyToFraction p).denominator = 4
          ∨ (proficiencyToFraction p).denominator = 5
          ∨ (proficiencyToFraction p).denominator = 10)
        ∧ 1 ≤ (proficiencyToFraction p).numerator
        ∧ (proficiencyToFraction p).numerator ≤ (proficiencyToFraction p).denominator - 1)
    ∧ (proficiencyToFraction 0).numerator = (proficiencyToFraction 0).denominator - 1
    ∧ (proficiencyToFraction 1).numerator = 1 := by
  refine ⟨fun p _ _ => prof_invariant p, ?_, ?_⟩
  · rw [prof_at_zero]
    rfl
  · rw [prof_at_one]

/-- Witness for C7 at proficiency `1/2`. -/
theorem C7_witness :
    (0 : ℚ) ≤ 0.5 ∧ (0.5 : ℚ) ≤ 1 ∧
      ((proficiencyToFraction (0.5 : ℚ)).denominator = 4
          ∨ (proficiencyToFraction (0.5 : ℚ)).denominator = 5
          ∨ (proficiencyToFraction (0.5 : ℚ)).denominator = 10)
        ∧ 1 ≤ (proficiencyToFraction (0.5 : ℚ)).numerator
        ∧ (proficiencyToFraction (0.5 : ℚ)).numerator ≤
            (proficiencyToFraction (0.5 : ℚ)).denominator - 1 :=
  ⟨by norm_num, by norm_num,
    C7_fraction_invariant.1 (0.5 : ℚ) (by norm_num) (by norm_num)⟩

/-- C10: whenever the below-proficient share `1 - p` lies in
`[1/20, 19/20]`, the returned fraction approximates it to within one
twentieth. -/
theorem C10_twentieth_bound (p : ℚ) (h1 : 1/20 ≤ 1 - p) (h2 : 1 - p ≤ 19/20) :
    |((proficiencyToFraction p).numerator : ℚ) / ((proficiencyToFraction p).denominator : ℚ)
        - (1 - p)| ≤ 1/20 := by
  rw [prof_eq_spec]
  simp only [fractionSpec]
  set b := 1 - p with hb
  set n4 := round (b * 4) with hn4
  set n5 := round (b * 5) with hn5
  set n10 := round (b * 10) with hn10
  set e4 := |(n4 : ℚ) / 4 - b| with he4
  set e5 := |(n5 : ℚ) / 5 - b| with he5
  set e10 := |(n10 : ℚ) / 10 - b| with he10
  have hr10 : |b * 10 - (n10 : ℚ)| ≤ 1/2 := abs_sub_round (b * 10)
  have habs10 : e10 ≤ 1/20 := by
    rw [he10, show (n10 : ℚ)/10 - b = -((b * 10 - n10)/10) by ring, abs_neg, abs_div,
      abs_of_pos (show (0:ℚ) < 10 by norm_num)]
    linarith
  have hn101 : 1 ≤ n10 := by
    rw [hn10, round_eq]
    exact Int.le_floor.mpr (by push_cast; linarith)
  by_cases hA : e10 ≤ e4 ∧ e10 ≤ e5
  · rw [if_pos hA]
    dsimp only
    rw [if_neg (show ¬ (n10 ≤ 0) by omega)]
    by_cases hTen : (10 : ℤ) ≤ n10
    · rw [if_pos hTen]
      have hb19 : b = 19/20 := by
        have h0 : ((10 : ℤ) : ℚ) ≤ b * 10 + 1/2 := by
          rw [hn10, round_eq] at hTen
          exact_mod_cast Int.le_floor.mp hTen
        push_cast at h0
        linarith
      rw [hb19]
      push_cast
      rw [abs_of_nonpos (by norm_num)]
      norm_num
    · rw [if_neg hTen]
      push_cast
      rw [he10] at habs10
      exact habs10
  · rw [if_neg hA]
    by_cases hB : e5 ≤ e4
    · rw [if_pos hB]
      dsimp only
      have h5lt : e5 < e10 := by
        rcases not_and_or.mp hA with h | h
        · exact lt_of_le_of_lt hB (not_le.mp h)
        · exact not_le.mp h
      have hn51 : 1 ≤ n5 := by
        by_contra hc
        push_neg at hc
        have hn5q : (n5 : ℚ) ≤ 0 := by exact_mod_cast (by omega : n5 ≤ 0)
        have h50 : (n5 : ℚ)/5 ≤ 0 := by linarith
        have hba : b - (n5 : ℚ)/5 ≤ e5 := by
          rw [he5]
          have := neg_abs_le ((n5 : ℚ)/5 - b)
          linarith
        linarith
      rw [if_neg (show ¬ (n5 ≤ 0) by omega)]
      by_cases hFive : (5 : ℤ) ≤ n5
      · exfalso
        have hq : (1 : ℚ) ≤ (n5 : ℚ)/5 := by
          rw [le_div_iff₀ (by norm_num : (0:ℚ) < 5)]
          have h5q : (5 : ℚ) ≤ (n5 : ℚ) := by exact_mod_cast hFive
          linarith
        have hle : (n5 : ℚ)/5 - b ≤ e5 := by
          rw [he5]
          exact le_abs_self _
        linarith
      · rw [if_neg hFive]
        push_cast
        have hfin : e5 ≤ 1/20 := le_of_lt (lt_of_lt_of_le h5lt habs10)
        rw [he5] at hfin
        exact hfin
    · rw [if_neg hB]
      dsimp only
      have h4lt : e4 < e10 := by
        rcases not_and_or.mp hA with h | h
        · exact not_le.mp h
        · exact lt_trans (not_le.mp hB) (not_le.mp h)
      have hn41 : 1 ≤ n4 := by
        by_contra hc
        push_neg at hc
        have hn4q : (n4 : ℚ) ≤ 0 := by exact_mod_cast (by omega : n4 ≤ 0)
        have h40 : (n4 : ℚ)/4 ≤ 0 := by linarith
        have hba : b - (n4 : ℚ)/4 ≤ e4 := by
          rw [he4]
          have := neg_abs_le ((n4 : ℚ)/4 - b)
          linarith
        linarith
      rw [if_neg (show ¬ (n4 ≤ 0) by omega)]
      by_cases hFour : (4 : ℤ) ≤ n4
      · exfalso
        have hq : (1 : ℚ) ≤ (n4 : ℚ)/4 := by
          rw [le_div_iff₀ (by norm_num : (0:ℚ) < 4)]
          have h4q : (4 : ℚ) ≤ (n4 : ℚ) := by exact_mod_cast hFour
          linarith
        have hle : (n4 : ℚ)/4 - b ≤ e4 := by
          rw [he4]
          exact le_abs_self _
        linarith
      · rw [if_neg hFour]
        push_cast
        have hfin : e4 ≤ 1/20 := le_of_lt (lt_of_lt_of_le h4lt habs10)
        rw [he4] at hfin
        exact hfin

/-- Witness for C10 at proficiency `1/2`. -/
theorem C10_witness :
    (1:ℚ)/20 ≤ 1 - 0.5 ∧ (1 - (0.5:ℚ)) ≤ 19/20 ∧
      |((proficiencyToFraction (0.5 : ℚ)).numerator : ℚ) /
          ((proficiencyToFraction (0.5 : ℚ)).denominator : ℚ) - (1 - 0.5)| ≤ 1/20 :=
  ⟨by norm_num, by norm_num, C10_twentieth_bound (0.5 : ℚ) (by norm_num) (by norm_num)⟩

/-- Length of a decoded arc, for any running-sum accumulator. -/
theorem decodeArcAux_length (sx sy tx ty : ℚ) :
    ∀ (arc : List (Int × Int)) (x y : Int),
      (decodeArcAux sx sy tx ty x y arc).length = arc.length := by
  intro arc
  induction arc with
  | nil => intro x y; rfl
  | cons d rest ih =>
    intro x y
    simp [decodeArcAux, ih]

/-- The k-th decoded point is the accumulator plus the prefix sum of the
first `k + 1` deltas, rescaled affinely. -/
theorem decodeArcAux_getD (sx sy tx ty : ℚ) :
    ∀ (arc : List (Int × Int)) (x y : Int) (k : ℕ), k < arc.length →
      (decodeArcAux sx sy tx ty x y arc).getD k (0, 0) =
        (((x + ((arc.take (k+1)).map Prod.fst).sum : ℤ) : ℚ) * sx + tx,
         ((y + ((arc.take (k+1)).map Prod.snd).sum : ℤ) : ℚ) * sy + ty) := by
  intro arc
  induction arc with
  | nil => intro x y k hk; simp at hk
  | cons d rest ih =>
    intro x y k hk
    cases k with
    | zero =>
      simp [decodeArcAux]
    | succ k =>
      have hk2 : k < rest.length := by simpa using hk
      simp only [decodeArcAux, List.getD_cons_succ]
      rw [ih (x + d.1) (y + d.2) k hk2]
      simp [List.take_succ_cons, add_assoc]

/-- C8: for every arc of integer delta pairs and every scale/translate, the
arc decoder returns a sequence of the same length whose k-th point is the
prefix sum of the first `k + 1` deltas rescaled affinely
(`sum * scale + translate` per axis); a topology without a transform decodes
with identity scale `[1, 1]` and translate `[0, 0]`. -/
theorem C8_decoder_prefix_sums :
    (∀ (sx sy tx ty : ℚ) (arc : List (Int × Int)),
        (decodeArc sx sy tx ty arc).length = arc.length
        ∧ ∀ k : ℕ, k < arc.length →
            (decodeArc sx sy tx ty arc).getD k (0, 0) =
              (((((arc.take (k+1)).map Prod.fst).sum : ℤ) : ℚ) * sx + tx,
               ((((arc.take (k+1)).map Prod.snd).sum : ℤ) : ℚ) * sy + ty))
    ∧ effectiveTransform none = ⟨(1, 1), (0, 0)⟩ := by
  refine ⟨fun sx sy tx ty arc => ⟨decodeArcAux_length sx sy tx ty arc 0 0, ?_⟩, rfl⟩
  intro k hk
  rw [decodeArc, decodeArcAux_getD sx sy tx ty arc 0 0 k hk]
  simp

/-- Witness for C8 on the arc `[(1, 2), (3, 4)]` with scale `(2, 1)` and
translate `(10, 0)` at index `k = 1`. -/
theorem C8_witness :
    1 < exArc.length ∧
      (decodeArc 2 1 10 0 exArc).getD 1 (0, 0) =
        ((((exArc.take 2).map Prod.fst).sum : ℚ) * 2 + 10,
         (((exArc.take 2).map Prod.snd).sum : ℚ) * 1 + 0) :=
  ⟨by norm_num [exArc],
    (C8_decoder_prefix_sums.1 2 1 10 0 exArc).2 1 (by norm_num [exArc])⟩

/-- C3: the aligner maps a point `(px, py)` of the cloud to
`(ox + (px - dx0)*scale, oy + (py - dy0)*scale)` with
`scale = min(availW/dw, availH/dh)`, `availW = w*(1-2*pad)`,
`ox = x0 + w*pad + (availW - dw*scale)/2` (and analogously in y); the
end-to-end composite obeys the same formula for the looked-up city, and the
specification scenario (state bbox `{0, 0, 100, 50}`, pad `0.04`, cloud bbox
`{0, 0, 10, 10}`, city at `(5, 5)`) aligns the city to `(50, 25)`, the
centroid of the padded target area. -/
theorem C3_aligner_formula :
    (∀ (bb cloudBB : BBox) (pad px py : ℚ),
        alignPoint bb pad cloudBB px py = specAlignedPoint bb pad cloudBB px py)
    ∧ (∀ (sd : StateData) (topo : Topology) (fips cityName : String)
        (city : StatePoint) (cloud bb : BBox),
        sd.cities.find? (fun c => lowerStr c.name == lowerStr cityName) = some city →
        bboxFold (ptsXY (allFinitePts sd)) = some cloud →
        getStateBBoxFromTopology topo fips = Except.ok (some bb) →
        getExpectedAlignedCityPoint sd topo fips cityName =
          Except.ok (some (specAlignedPoint bb (0.04 : ℚ) cloud
            (city.x.getD 0) (city.y.getD 0))))
    ∧ getExpectedAlignedCityPoint sdC3 topoEx "39" "A" = Except.ok (some (50, 25)) := by
  refine ⟨fun bb cloudBB pad px py => rfl, ?_, ?_⟩
  · intro sd topo fips cityName city cloud bb hfind hfold htopo
    unfold getExpectedAlignedCityPoint
    rw [hfind]
    dsimp only
    have hne : (allFinitePts sd).isEmpty = false := by
      cases h : (allFinitePts sd).isEmpty
      · rfl
      · exfalso
        rw [List.isEmpty_iff.mp h] at hfold
        exact Option.noConfusion (hfold.symm.trans rfl)
    rw [hne]
    simp only [Bool.false_eq_true, if_false]
    rw [hfold]
    dsimp only
    rw [htopo]
    rfl
  · norm_num [getExpectedAlignedCityPoint, sdC3, topoEx, allFinitePts, ptsXY, bboxFold,
      getStateBBoxFromTopology, geometryPoints, decodedArcs, decodeArc, decodeArcAux,
      ringCoords, effectiveTransform, alignPoint, List.find?, List.filter, min_def]

/-- Witness for C3's composite clause on the specification scenario. -/
theorem C3_witness :
    sdC3.cities.find? (fun c => lowerStr c.name == lowerStr "A") =
        some { name := "A", x := some 5, y := some 5 }
    ∧ bboxFold (ptsXY (allFinitePts sdC3)) =
        some { x0 := 0, y0 := 0, x1 := 10, y1 := 10, w := 10, h := 10 }
    ∧ getStateBBoxFromTopology topoEx "39" =
        Except.ok (some { x0 := 0, y0 := 0, x1 := 100, y1 := 50, w := 100, h := 50 })
    ∧ getExpectedAlignedCityPoint sdC3 topoEx "39" "A" =
        Except.ok (some (specAlignedPoint
          { x0 := 0, y0 := 0, x1 := 100, y1 := 50, w := 100, h := 50 } (0.04 : ℚ)
          { x0 := 0, y0 := 0, x1 := 10, y1 := 10, w := 10, h := 10 }
          ((some (5:ℚ)).getD 0) ((some (5:ℚ)).getD 0))) :=
  ⟨by decide,
   by norm_num [bboxFold, ptsXY, allFinitePts, sdC3, List.filter, min_def, max_def],
   by norm_num [getStateBBoxFromTopology, topoEx, geometryPoints, decodedArcs, decodeArc,
     decodeArcAux, ringCoords, effectiveTransform, bboxFold, List.find?, min_def, max_def],
   C3_aligner_formula.2.1 sdC3 topoEx "39" "A"
     { name := "A", x := some 5, y := some 5 }
     { x0 := 0, y0 := 0, x1 := 10, y1 := 10, w := 10, h := 10 }
     { x0 := 0, y0 := 0, x1 := 100, y1 := 50, w := 100, h := 50 }
     (by decide)
     (by norm_num [bboxFold, ptsXY, allFinitePts, sdC3, List.filter, min_def, max_def])
     (by norm_num [getStateBBoxFromTopology, topoEx, geometryPoints, decodedArcs, decodeArc,
       decodeArcAux, ringCoords, effectiveTransform, bboxFold, List.find?, min_def, max_def])⟩

/-- C9: the aligner is idempotent (a pure function of its inputs: repeated
invocation with identical inputs yields identical outputs) and
scale-covariant: scaling the target bbox's width and height by `k > 0` with
origin fixed scales every output point's offset from the origin by exactly
`k`, for clouds of positive width and height. -/
theorem C9_idempotent_scale_covariant :
    (∀ (sd : StateData) (topo : Topology) (fips cityName : String),
        getExpectedAlignedCityPoint sd topo fips cityName =
          getExpectedAlignedCityPoint sd topo fips cityName)
    ∧ ∀ (bb cloud : BBox) (pad px py k : ℚ), 0 < k → 0 < cloud.w → 0 < cloud.h →
        (alignPoint (scaleBBox bb k) pad cloud px py).1 - bb.x0 =
            k * ((alignPoint bb pad cloud px py).1 - bb.x0)
        ∧ (alignPoint (scaleBBox bb k) pad cloud px py).2 - bb.y0 =
            k * ((alignPoint bb pad cloud px py).2 - bb.y0) := by
  refine ⟨fun _ _ _ _ => rfl, ?_⟩
  intro bb cloud pad px py k hk hw hh
  unfold alignPoint scaleBBox
  dsimp only
  have h1 : k * bb.w * (1 - 2 * pad) / cloud.w = k * (bb.w * (1 - 2 * pad) / cloud.w) := by
    ring
  have h2 : k * bb.h * (1 - 2 * pad) / cloud.h = k * (bb.h * (1 - 2 * pad) / cloud.h) := by
    ring
  rw [h1, h2, ← mul_min_of_nonneg _ _ hk.le]
  constructor <;> ring

/-- Witness for C9's covariance clause at `k = 2` on the specification
scenario's bbox and cloud. -/
theorem C9_witness :
    (0:ℚ) < 2
    ∧ (0:ℚ) < ({ x0 := 0, y0 := 0, x1 := 10, y1 := 10, w := 10, h := 10 } : BBox).w
    ∧ (0:ℚ) < ({ x0 := 0, y0 := 0, x1 := 10, y1 := 10, w := 10, h := 10 } : BBox).h
    ∧ ((alignPoint (scaleBBox { x0 := 0, y0 := 0, x1 := 100, y1 := 50, w := 100, h := 50 } 2)
          (0.04 : ℚ) { x0 := 0, y0 := 0, x1 := 10, y1 := 10, w := 10, h := 10 } 5 5).1
          - (0 : ℚ) =
        2 * ((alignPoint { x0 := 0, y0 := 0, x1 := 100, y1 := 50, w := 100, h := 50 }
          (0.04 : ℚ) { x0 := 0, y0 := 0, x1 := 10, y1 := 10, w := 10, h := 10 } 5 5).1 - 0)
      ∧ (alignPoint (scaleBBox { x0 := 0, y0 := 0, x1 := 100, y1 := 50, w := 100, h := 50 } 2)
          (0.04 : ℚ) { x0 := 0, y0 := 0, x1 := 10, y1 := 10, w := 10, h := 10 } 5 5).2
          - (0 : ℚ) =
        2 * ((alignPoint { x0 := 0, y0 := 0, x1 := 100, y1 := 50, w := 100, h := 50 }
          (0.04 : ℚ) { x0 := 0, y0 := 0, x1 := 10, y1 := 10, w := 10, h := 10 } 5 5).2 - 0)) :=
  ⟨by norm_num, by norm_num, by norm_num,
    C9_idempotent_scale_covariant.2
      { x0 := 0, y0 := 0, x1 := 100, y1 := 50, w := 100, h := 50 }
      { x0 := 0, y0 := 0, x1 := 10, y1 := 10, w := 10, h := 10 }
      (0.04 : ℚ) 5 5 2 (by norm_num) (by norm_num) (by norm_num)⟩

end CoteacherNaep
